import Mathlib

/-!
Verification of the anomaly-detection / root-cause-analysis pipeline.

Shallow embedding of the Python sources:
* `apps/detector/detector/anomaly_detector.py`  (robust z-score detector)
* `apps/detector/detector/incident_grouper.py`  (incident grouper)
* `apps/detector/detector/job.py`               (anomaly persistence / dedup)
* `apps/rca/rca/candidate_generator.py`         (candidate generation)
* `apps/rca/rca/feature_extractor.py`           (feature extraction)
* `apps/rca/rca/ranker.py` and `ml_ranker.py`   (rankers)
* `apps/rca/rca/job.py`                         (suspect persistence)

Conventions: Python floats are modelled as `ℚ` where the code only uses
field operations and comparisons, and as `ℝ` where `math.exp` enters
(ranker scores).  Timestamps are UTC epoch seconds modelled as `Int`
(`timedelta(minutes=m)` becomes `60 * m` seconds).  Database reads are
passed in as explicit query-result arguments; a `none` result models the
`except`-branch of the surrounding `try`.
-/

open List

namespace Pipeline

/-! ### Detector: `anomaly_detector.py` -/

/-- Parameters of `AnomalyDetector.__init__`, with the constructor's
default values (`z_threshold=3.0`, `min_points=5`, `lookback_days=7`,
and the default `bad_directions` map). -/
structure AnomalyDetector where
  z_threshold : ℚ := 3
  min_points : Nat := 5
  lookback_days : Nat := 7
  bad_directions : List (String × String) :=
    [("p95_latency_ms", "up"), ("p99_latency_ms", "up"),
     ("error_rate", "up"), ("qps", "down")]

/-- `numpy.median` on a list of rationals: sort ascending, take the middle
element for odd length, the mean of the two middle elements for even
length.  (The callers guard against the empty list via `min_points`.) -/
def npMedian (l : List ℚ) : ℚ :=
  let s := l.insertionSort (· ≤ ·)
  if l.length % 2 = 1 then s.getD (l.length / 2) 0
  else (s.getD (l.length / 2 - 1) 0 + s.getD (l.length / 2) 0) / 2

/-- Embeds `AnomalyDetector.compute_baseline`: `None` when fewer than
`min_points` values, otherwise `(median, 1.4826 * MAD)`. -/
def compute_baseline (D : AnomalyDetector) (values : List ℚ) : Option (ℚ × ℚ) :=
  if values.length < D.min_points then none
  else
    let m := npMedian values
    let mad := npMedian (values.map (fun v => |v - m|))
    some (m, 1.4826 * mad)

/-- Embeds `AnomalyDetector.is_anomaly` (the callers only reach it with a
non-`None` baseline, so the `None` guard is dropped): floor the scaled MAD
at `1e-6`, compute the robust z-score, compare against the threshold and
then apply the bad-direction filter (default direction `"up"`). -/
def is_anomaly (D : AnomalyDetector) (value baseline_median baseline_mad : ℚ)
    (metric : String) : Bool :=
  let mad := if baseline_mad < 1 / 1000000 then 1 / 1000000 else baseline_mad
  let z := |value - baseline_median| / mad
  if z ≤ D.z_threshold then false
  else
    let dir := (D.bad_directions.lookup metric).getD "up"
    if dir = "up" ∧ value < baseline_median then false
    else if dir = "down" ∧ value > baseline_median then false
    else true

/-- The point-by-point sweep loop of `detect_anomalies_in_window`: state is
(`anomaly_count`, `max_z_score`, `window_start`, `window_end`, accumulated
segments).  Note that the loop recomputes a z-score that is `0` whenever
the scaled MAD is below `1e-6`, while `is_anomaly` instead floors the MAD
at `1e-6` — exactly as in the source. -/
def sweepRun (D : AnomalyDetector) (bm bs : ℚ) (metric : String)
    (required_anomalies : Nat) :
    List (ℚ × Int) → Nat → ℚ → Option Int → Option Int →
    List (Int × Int × ℚ) → List (Int × Int × ℚ)
  | [], cnt, maxz, ws, we, acc =>
      if required_anomalies ≤ cnt ∧ ws ≠ none then
        acc ++ [(ws.getD 0, we.getD 0, maxz)]
      else acc
  | (v, t) :: rest, cnt, maxz, ws, we, acc =>
      let z := if bs < 1 / 1000000 then 0 else |v - bm| / bs
      if is_anomaly D v bm bs metric then
        sweepRun D bm bs metric required_anomalies rest (cnt + 1) (max maxz z)
          (if ws = none then some t else ws) (some t) acc
      else
        let acc' :=
          if required_anomalies ≤ cnt ∧ ws ≠ none then
            acc ++ [(ws.getD 0, we.getD 0, maxz)]
          else acc
        sweepRun D bm bs metric required_anomalies rest 0 0 none none acc'

/-- Embeds `AnomalyDetector.detect_anomalies_in_window`.  The baseline
prefix is `values[:baseline_size]` and the evaluation window the trailing
`window_minutes` points; indices are modelled with `Nat` subtraction,
which agrees with the source whenever `window_minutes ≤ len(values)` (the
regime of every call site, where the buffer has ≥ 20 points and the window
5). -/
def detect_anomalies_in_window (D : AnomalyDetector) (values : List ℚ)
    (timestamps : List Int) (metric : String)
    (window_minutes : Nat := 5) (required_anomalies : Nat := 3) :
    List (Int × Int × ℚ) :=
  if values.length < D.min_points + required_anomalies then []
  else
    let baseline_size := min (values.length - window_minutes)
      (D.lookback_days * 24 * 60)
    match compute_baseline D (values.take baseline_size) with
    | none => []
    | some (bm, bs) =>
        let k := values.length - window_minutes
        sweepRun D bm bs metric required_anomalies
          ((values.drop k).zip (timestamps.drop k)) 0 0 none none []

lemma getD_of_all_eq {l : List ℚ} {c : ℚ} (h : ∀ v ∈ l, v = c) {i : Nat}
    (hi : i < l.length) : l.getD i 0 = c := by
  rw [List.getD_eq_getElem l 0 hi]
  exact h _ (List.getElem_mem hi)

lemma npMedian_const {l : List ℚ} {c : ℚ} (hne : l ≠ []) (h : ∀ v ∈ l, v = c) :
    npMedian l = c := by
  have hs : ∀ v ∈ l.insertionSort (· ≤ ·), v = c := fun v hv =>
    h v ((List.mem_insertionSort _).1 hv)
  have hlen : (l.insertionSort (· ≤ ·)).length = l.length :=
    List.length_insertionSort _ _
  have hpos : 0 < l.length := List.length_pos.2 hne
  unfold npMedian
  by_cases hodd : l.length % 2 = 1
  · rw [if_pos hodd, getD_of_all_eq hs (by rw [hlen]; exact Nat.div_lt_self hpos one_lt_two)]
  · rw [if_neg hodd,
      getD_of_all_eq hs (by
        rw [hlen]
        exact lt_of_le_of_lt (Nat.sub_le _ _) (Nat.div_lt_self hpos one_lt_two)),
      getD_of_all_eq hs (by rw [hlen]; exact Nat.div_lt_self hpos one_lt_two)]
    ring

lemma compute_baseline_const (D : AnomalyDetector) {l : List ℚ} {c : ℚ}
    (hne : l ≠ []) (h : ∀ v ∈ l, v = c) (hlen : ¬ l.length < D.min_points) :
    compute_baseline D l = some (c, 0) := by
  have hmap : npMedian (l.map fun v => |v - c|) = 0 := by
    refine npMedian_const (by simpa using hne) ?_
    intro v hv
    rcases List.mem_map.1 hv with ⟨w, hw, rfl⟩
    rw [h w hw, sub_self, abs_zero]
  unfold compute_baseline
  rw [if_neg hlen]
  simp only [npMedian_const hne h, hmap, mul_zero]

lemma is_anomaly_self (D : AnomalyDetector) (h0 : 0 ≤ D.z_threshold)
    (c bs : ℚ) (metric : String) : is_anomaly D c c bs metric = false := by
  unfold is_anomaly
  simp only [sub_self, abs_zero, zero_div, if_pos h0]

lemma sweepRun_all_skip (D : AnomalyDetector) (bm bs : ℚ) (metric : String)
    (req : Nat) :
    ∀ (pts : List (ℚ × Int)) (acc : List (Int × Int × ℚ)),
      (∀ p ∈ pts, is_anomaly D p.1 bm bs metric = false) →
      sweepRun D bm bs metric req pts 0 0 none none acc = acc
  | [], acc, _ => by simp [sweepRun]
  | (v, t) :: rest, acc, h => by
    have hv : is_anomaly D v bm bs metric = false := h (v, t) (by simp)
    rw [sweepRun, hv]
    simpa using sweepRun_all_skip D bm bs metric req rest acc
      (fun p hp => h p (List.mem_cons_of_mem _ hp))

/-- **C1 (amended).** If *every* value in the buffer is the same constant
(an all-equal baseline and an all-equal evaluation window), the window
sweep emits no anomaly segments: `detect_anomalies_in_window` returns `[]`
(for any positive `min_points` and non-negative threshold).  The original
claim — an all-equal *baseline prefix* alone suffices — is false: see the
counterexample, where `is_anomaly` floors the scaled MAD at `1e-6` and so
flags every window point that deviates from the baseline median in the bad
direction. -/
theorem detect_all_equal_buffer_no_anomalies (D : AnomalyDetector)
    (values : List ℚ) (timestamps : List Int) (metric : String)
    (window_minutes required_anomalies : Nat) (c : ℚ)
    (hmp : 1 ≤ D.min_points) (hz : 0 ≤ D.z_threshold)
    (hall : ∀ v ∈ values, v = c) :
    detect_anomalies_in_window D values timestamps metric window_minutes
      required_anomalies = [] := by
  unfold detect_anomalies_in_window
  by_cases hguard : values.length < D.min_points + required_anomalies
  · rw [if_pos hguard]
  · rw [if_neg hguard]
    by_cases hbl : (values.take (min (values.length - window_minutes)
        (D.lookback_days * 24 * 60))).length < D.min_points
    · have : compute_baseline D (values.take (min (values.length - window_minutes)
          (D.lookback_days * 24 * 60))) = none := by
        unfold compute_baseline
        rw [if_pos hbl]
      simp only [this]
    · have hne : values.take (min (values.length - window_minutes)
          (D.lookback_days * 24 * 60)) ≠ [] := by
        intro hcon
        rw [hcon] at hbl
        exact hbl (lt_of_lt_of_le Nat.zero_lt_one hmp)
      have hco : compute_baseline D (values.take (min (values.length - window_minutes)
          (D.lookback_days * 24 * 60))) = some (c, 0) :=
        compute_baseline_const D hne
          (fun v hv => hall v (List.mem_of_mem_take hv)) hbl
      simp only [hco]
      refine sweepRun_all_skip D c 0 metric required_anomalies _ [] ?_
      intro p hp
      have hv : p.1 = c := by
        have h1 := List.of_mem_zip hp
        exact hall _ (List.mem_of_mem_drop h1.1)
      rw [hv]
      exact is_anomaly_self D hz c 0 metric

lemma is_anomaly_120_of_flat_baseline :
    is_anomaly {} (120 : ℚ) 50 0 "p95_latency_ms" = true := by
  unfold is_anomaly
  norm_num [List.lookup]
  decide

/-- **C1 (counterexample).** A buffer whose baseline prefix is all-equal
(8 points at 50, so MAD = 0 and the scaled MAD is floored to `1e-6`)
followed by an evaluation window of 5 points at 120: the claim says
`detect_anomalies_in_window` returns the empty list, but the sweep emits
the segment `(8, 12, 0)` — `is_anomaly` divides the deviation 70 by the
`1e-6` floor, giving a z-score of 7·10⁷ > 3, while the emitted
`max_z_score` is `0` because the sweep separately zeroes the z-score when
the scaled MAD is below `1e-6`. -/
theorem detect_allEqualBaseline_counterexample :
    (List.replicate 8 (50 : ℚ) ++ List.replicate 5 120).take 8 =
        List.replicate 8 (50 : ℚ) ∧
    detect_anomalies_in_window {}
        (List.replicate 8 (50 : ℚ) ++ List.replicate 5 120)
        [0, 1, 2, 3, 4, 5, 6, 7, 8, 9, 10, 11, 12] "p95_latency_ms" 5 3 =
      [(8, 12, 0)] := by
  have hco : compute_baseline {} (List.replicate 8 (50 : ℚ)) = some (50, 0) :=
    compute_baseline_const _ (by simp)
      (fun v hv => List.eq_of_mem_replicate hv) (by simp)
  constructor
  · exact take_left' (by simp)
  · unfold detect_anomalies_in_window
    rw [if_neg (by simp)]
    have hk : (List.replicate 8 (50 : ℚ) ++ List.replicate 5 120).length - 5 = 8 := by
      simp
    simp only [hk]
    rw [Nat.min_eq_left (by norm_num),
      take_left' (show (List.replicate 8 (50 : ℚ)).length = 8 by simp), hco,
      drop_left' (show (List.replicate 8 (50 : ℚ)).length = 8 by simp)]
    have hzip : (List.replicate 5 (120 : ℚ)).zip
        (([0, 1, 2, 3, 4, 5, 6, 7, 8, 9, 10, 11, 12] : List Int).drop 8) =
        [(120, 8), (120, 9), (120, 10), (120, 11), (120, 12)] := rfl
    rw [hzip]
    norm_num [sweepRun, is_anomaly_120_of_flat_baseline]
    simp

/-- **C1 (witness).** The amended theorem applied to a concrete all-equal
buffer of 13 points at 50. -/
theorem detect_all_equal_buffer_witness :
    detect_anomalies_in_window {} (List.replicate 13 (50 : ℚ))
      [0, 1, 2, 3, 4, 5, 6, 7, 8, 9, 10, 11, 12] "p95_latency_ms" 5 3 = [] :=
  detect_all_equal_buffer_no_anomalies {} _ _ _ 5 3 50 (by norm_num)
    (by norm_num) (fun v hv => List.eq_of_mem_replicate hv)

/-! ### Anomaly persistence and deduplication: `detector/job.py` -/

/-- A row of the `anomalies` table, as inserted by
`DetectorWorker.store_anomaly`. -/
structure AnomalyRow where
  id : String
  service : String
  metric : String
  start_ts : Int
  end_ts : Int
  score : ℚ
deriving DecidableEq

/-- Embeds `DetectorWorker.store_anomaly`: look for an existing anomaly of
the same `(service, metric)` whose `start_ts` lies in the inclusive window
`[start_ts − 60 s, start_ts + 60 s]` (the Python computes
`start_ts ± timedelta(minutes=1)` and queries with `>=`/`<=`); skip the
insert if one exists, otherwise append the new row. -/
def store_anomaly (table : List AnomalyRow) (newId service metric : String)
    (start_ts end_ts : Int) (score : ℚ) : List AnomalyRow :=
  if table.any (fun r =>
      r.service = service ∧ r.metric = metric ∧
      start_ts - 60 ≤ r.start_ts ∧ r.start_ts ≤ start_ts + 60) then
    table
  else
    table ++ [⟨newId, service, metric, start_ts, end_ts, score⟩]

/-- One emission request handed to `store_anomaly` (the tuple produced by
`detect_anomalies_in_window` plus the key and a fresh id). -/
structure Emission where
  id : String
  service : String
  metric : String
  start_ts : Int
  end_ts : Int
  score : ℚ
deriving DecidableEq

/-- Fold a sequence of emissions through `store_anomaly`. -/
def store_all (table : List AnomalyRow) (es : List Emission) : List AnomalyRow :=
  es.foldl (fun t e => store_anomaly t e.id e.service e.metric e.start_ts
    e.end_ts e.score) table

/-- Invariant P1: any two persisted anomalies of the same service and
metric have start timestamps more than 60 seconds apart. -/
def DedupOk (table : List AnomalyRow) : Prop :=
  table.Pairwise (fun a b =>
    a.service = b.service → a.metric = b.metric → 60 < |a.start_ts - b.start_ts|)

lemma store_anomaly_dedup {table : List AnomalyRow} (h : DedupOk table)
    (newId service metric : String) (start_ts end_ts : Int) (score : ℚ) :
    DedupOk (store_anomaly table newId service metric start_ts end_ts score) := by
  unfold store_anomaly
  by_cases hex : table.any (fun r =>
      r.service = service ∧ r.metric = metric ∧
      start_ts - 60 ≤ r.start_ts ∧ r.start_ts ≤ start_ts + 60)
  · rw [if_pos hex]; exact h
  · rw [if_neg hex]
    have hex' : ∀ a ∈ table, ¬(a.service = service ∧ a.metric = metric ∧
        start_ts - 60 ≤ a.start_ts ∧ a.start_ts ≤ start_ts + 60) := by
      intro a ha hcon
      exact hex (List.any_eq_true.2 ⟨a, ha, by simpa using hcon⟩)
    refine List.pairwise_append.2 ⟨h, by simp, ?_⟩
    intro a ha b hb
    rcases List.mem_singleton.1 hb with rfl
    intro hsv hm
    simp only at hsv hm ⊢
    have h3 : ¬(start_ts - 60 ≤ a.start_ts ∧ a.start_ts ≤ start_ts + 60) :=
      fun hc => hex' a ha ⟨hsv, hm, hc⟩
    rcases not_and_or.1 h3 with h4 | h4 <;> push_neg at h4
    · exact lt_abs.2 (Or.inr (by omega))
    · exact lt_abs.2 (Or.inl (by omega))

/-- **C8.** Deduplication invariant of `DetectorWorker.store_anomaly`: an
emission is skipped whenever a prior anomaly for the same
`(service, metric)` has `start_ts` within ±60 s of the new segment's
start, so if the stored table satisfies P1 — distinct same-key anomalies
differ by more than 60 s in `start_ts` — it still satisfies P1 after any
sequence of emissions is stored. -/
theorem store_all_dedup (table : List AnomalyRow) (es : List Emission)
    (h : DedupOk table) : DedupOk (store_all table es) := by
  induction es generalizing table with
  | nil => exact h
  | cons e rest ih =>
      exact ih _ (store_anomaly_dedup h e.id e.service e.metric e.start_ts
        e.end_ts e.score)

/-- **C8 (witness).** Starting from the empty table, storing two emissions
(the second 30 s after the first, hence deduplicated) preserves P1. -/
theorem store_all_dedup_witness :
    DedupOk (store_all []
      [⟨"a1", "payment", "error_rate", 1000, 1060, 5⟩,
       ⟨"a2", "payment", "error_rate", 1030, 1090, 6⟩]) :=
  store_all_dedup [] _ (List.Pairwise.nil)

/-! ### Incident grouper: `incident_grouper.py` -/

/-- An anomaly record as read back for grouping (`group_and_create_incidents`
passes dicts with `id, start_ts, end_ts, service, metric, score`).  Ids are
modelled as `Nat`. -/
structure AnomalyRec where
  id : Nat
  start_ts : Int
  end_ts : Int
  service : String
  metric : String
  score : ℚ
deriving DecidableEq

/-- The in-progress incident of the grouper fold (`current_incident`),
including the transient `services` and `metrics` sets (modelled as
duplicate-free lists in insertion order).  The `uuid.uuid4()` id is
modelled as a fresh counter value. -/
structure OpenIncident where
  id : Nat
  start_ts : Int
  end_ts : Int
  title : String
  status : String
  anomaly_ids : List Nat
  services : List String
  metrics : List String
deriving DecidableEq

/-- An incident as returned by `IncidentGrouper.group_anomalies` (the
`services`/`metrics` working sets are dropped on close). -/
structure Incident where
  id : Nat
  start_ts : Int
  end_ts : Int
  title : String
  status : String
  anomaly_ids : List Nat
deriving DecidableEq

/-- Python `set.add`: append if absent. -/
def addSet (l : List String) (x : String) : List String :=
  if x ∈ l then l else l ++ [x]

/-- Total order on strings used to model Python `sorted`. -/
def strLe (a b : String) : Prop := a < b ∨ a = b

instance : DecidableRel strLe := fun a b => by
  unfold strLe
  infer_instance

/-- Python `', '.join(sorted(services))`. -/
def joinedSorted (services : List String) : String :=
  String.intercalate ", " (services.insertionSort strLe)

/-- The join test of the grouper fold:
`gap = (start_ts − current.end_ts).total_seconds() / 60 ≤ gap_minutes`
or the anomaly's service is already represented. -/
def joinCond (gap_minutes : Int) (inc : OpenIncident) (a : AnomalyRec) : Prop :=
  ((a.start_ts - inc.end_ts : Int) : ℚ) / 60 ≤ (gap_minutes : ℚ) ∨
    a.service ∈ inc.services

instance (gap_minutes : Int) (inc : OpenIncident) (a : AnomalyRec) :
    Decidable (joinCond gap_minutes inc a) := by
  unfold joinCond
  infer_instance

/-- Adding an anomaly to the current incident: extend `end_ts` to the max,
append the anomaly id, add service and metric, and retitle when more than
one service is represented. -/
def joinInc (inc : OpenIncident) (a : AnomalyRec) : OpenIncident :=
  let services := addSet inc.services a.service
  { inc with
    end_ts := max inc.end_ts a.end_ts
    anomaly_ids := inc.anomaly_ids ++ [a.id]
    services := services
    metrics := addSet inc.metrics a.metric
    title :=
      if 1 < services.length then "Incident affecting " ++ joinedSorted services
      else inc.title }

/-- A new incident seeded by one anomaly (`current_incident` initialiser). -/
def newInc (n : Nat) (a : AnomalyRec) : OpenIncident :=
  { id := n, start_ts := a.start_ts, end_ts := a.end_ts,
    title := "Incident in " ++ a.service, status := "OPEN",
    anomaly_ids := [a.id], services := [a.service], metrics := [a.metric] }

/-- Closing an incident drops the working `services`/`metrics` sets. -/
def closeInc (inc : OpenIncident) : Incident :=
  ⟨inc.id, inc.start_ts, inc.end_ts, inc.title, inc.status, inc.anomaly_ids⟩

/-- The fold of `IncidentGrouper.group_anomalies` over the sorted tail:
join the current incident when `joinCond` holds, otherwise close it and
seed a new one. -/
def groupSorted (gap_minutes : Int) : Nat → OpenIncident → List AnomalyRec →
    List Incident
  | _, cur, [] => [closeInc cur]
  | n, cur, a :: rest =>
      if joinCond gap_minutes cur a then
        groupSorted gap_minutes n (joinInc cur a) rest
      else
        closeInc cur :: groupSorted gap_minutes (n + 1) (newInc (n + 1) a) rest

instance : DecidableRel (fun a b : AnomalyRec => a.start_ts ≤ b.start_ts) :=
  fun a b => Int.decLe _ _

instance : IsTotal AnomalyRec (fun a b => a.start_ts ≤ b.start_ts) :=
  ⟨fun a b => le_total _ _⟩

instance : IsTrans AnomalyRec (fun a b => a.start_ts ≤ b.start_ts) :=
  ⟨fun _ _ _ h1 h2 => le_trans h1 h2⟩

/-- Embeds `IncidentGrouper.group_anomalies`: sort ascending by `start_ts`
(Python's stable `sorted` is modelled by stable insertion sort), then fold. -/
def group_anomalies (gap_minutes : Int) (anomalies : List AnomalyRec) :
    List Incident :=
  match anomalies.insertionSort (fun a b => a.start_ts ≤ b.start_ts) with
  | [] => []
  | a :: rest => groupSorted gap_minutes 0 (newInc 0 a) rest

/-- Specification of a well-formed output incident relative to the input
anomaly list: non-empty, `OPEN`, its `start_ts` is realised by a member
and is a lower bound of all members' starts, and its `end_ts` is an upper
bound of all members' ends. -/
def GoodInc (input : List AnomalyRec) (I : Incident) : Prop :=
  I.anomaly_ids ≠ [] ∧ I.status = "OPEN" ∧
  (∃ a ∈ input, a.id ∈ I.anomaly_ids ∧ a.start_ts = I.start_ts) ∧
  ∀ b ∈ input, b.id ∈ I.anomaly_ids →
    I.start_ts ≤ b.start_ts ∧ b.end_ts ≤ I.end_ts

lemma groupSorted_spec (gap_minutes : Int) (input : List AnomalyRec)
    (hnd : (input.map (·.id)).Nodup) :
    ∀ (rest : List AnomalyRec) (cur : OpenIncident) (n : Nat),
      (∀ x ∈ rest, x ∈ input) →
      List.Sorted (fun a b : AnomalyRec => a.start_ts ≤ b.start_ts) rest →
      (∀ x ∈ rest, cur.start_ts ≤ x.start_ts) →
      GoodInc input (closeInc cur) →
      (∀ I ∈ groupSorted gap_minutes n cur rest, GoodInc input I) ∧
      (groupSorted gap_minutes n cur rest).flatMap (·.anomaly_ids) =
        cur.anomaly_ids ++ rest.map (·.id) := by
  have hinj : ∀ a ∈ input, ∀ b ∈ input, a.id = b.id → a = b :=
    fun a ha b hb h => List.inj_on_of_nodup_map hnd ha hb h
  intro rest
  induction rest with
  | nil =>
      intro cur n _ _ _ hg
      refine ⟨?_, by simp [groupSorted, closeInc]⟩
      intro I hI
      rw [groupSorted] at hI
      rcases List.mem_singleton.1 hI with rfl
      exact hg
  | cons a rest ih =>
      intro cur n hsub hsort hcs hg
      have hamem : a ∈ input := hsub a (List.mem_cons_self a rest)
      have hsub' : ∀ x ∈ rest, x ∈ input :=
        fun x hx => hsub x (List.mem_cons_of_mem a hx)
      have hsort' : List.Sorted (fun a b : AnomalyRec => a.start_ts ≤ b.start_ts)
          rest := hsort.of_cons
      by_cases hj : joinCond gap_minutes cur a
      · rw [groupSorted, if_pos hj]
        have hgood : GoodInc input (closeInc (joinInc cur a)) := by
          obtain ⟨_, hst, ⟨a0, ha0, ha0id, ha0start⟩, hbnd⟩ := hg
          refine ⟨by simp [closeInc, joinInc], hst, ?_, ?_⟩
          · exact ⟨a0, ha0, by
              simp only [closeInc, joinInc] at ha0id ⊢
              exact ⟨List.mem_append_left _ ha0id, ha0start⟩⟩
          · intro b hb hbid
            simp only [closeInc, joinInc] at hbid ⊢
            rcases List.mem_append.1 hbid with hold | hnew
            · have := hbnd b hb hold
              exact ⟨this.1, le_trans this.2 (le_max_left _ _)⟩
            · have hba : b = a := hinj b hb a hamem (List.mem_singleton.1 hnew)
              subst hba
              exact ⟨hcs b (List.mem_cons_self _ _), le_max_right _ _⟩
        have hcs' : ∀ x ∈ rest, (joinInc cur a).start_ts ≤ x.start_ts :=
          fun x hx => hcs x (List.mem_cons_of_mem a hx)
        obtain ⟨h1, h2⟩ := ih (joinInc cur a) n hsub' hsort' hcs' hgood
        refine ⟨h1, ?_⟩
        rw [h2]
        simp [joinInc]
      · rw [groupSorted, if_neg hj]
        have hgood : GoodInc input (closeInc (newInc (n + 1) a)) := by
          refine ⟨by simp [closeInc, newInc], rfl, ⟨a, hamem, by simp [closeInc, newInc]⟩, ?_⟩
          intro b hb hbid
          simp only [closeInc, newInc] at hbid ⊢
          have hba : b = a := hinj b hb a hamem (List.mem_singleton.1 hbid)
          subst hba
          exact ⟨le_refl _, le_refl _⟩
        have hcs' : ∀ x ∈ rest, (newInc (n + 1) a).start_ts ≤ x.start_ts :=
          fun x hx => List.rel_of_sorted_cons hsort x hx
        obtain ⟨h1, h2⟩ := ih (newInc (n + 1) a) (n + 1) hsub' hsort' hcs' hgood
        refine ⟨?_, ?_⟩
        · intro I hI
          rcases List.mem_cons.1 hI with rfl | hmem
          · exact hg
          · exact h1 I hmem
        · rw [List.flatMap_cons, h2]
          simp [closeInc, newInc]

/-- **C10.** The grouper's output partitions its input: the concatenation
of all `anomaly_ids` is a permutation of the input ids and is
duplicate-free (so, input ids being distinct, every anomaly id lands in
exactly one returned incident), every returned incident has at least one
anomaly, has status `OPEN`, and its `start_ts` equals the `start_ts` of
its earliest-starting member anomaly. -/
theorem group_anomalies_partition (gap_minutes : Int) (l : List AnomalyRec)
    (hnd : (l.map (·.id)).Nodup) :
    ((group_anomalies gap_minutes l).flatMap (·.anomaly_ids)).Perm (l.map (·.id)) ∧
    ((group_anomalies gap_minutes l).flatMap (·.anomaly_ids)).Nodup ∧
    ∀ I ∈ group_anomalies gap_minutes l,
      I.anomaly_ids ≠ [] ∧ I.status = "OPEN" ∧
      (∃ a ∈ l, a.id ∈ I.anomaly_ids ∧ a.start_ts = I.start_ts) ∧
      ∀ b ∈ l, b.id ∈ I.anomaly_ids → I.start_ts ≤ b.start_ts := by
  have hperm : (l.insertionSort (fun a b : AnomalyRec => a.start_ts ≤ b.start_ts)).Perm l :=
    List.perm_insertionSort _ l
  have hsorted := List.sorted_insertionSort
    (fun a b : AnomalyRec => a.start_ts ≤ b.start_ts) l
  unfold group_anomalies
  cases hs : l.insertionSort (fun a b : AnomalyRec => a.start_ts ≤ b.start_ts) with
  | nil =>
      have : l = [] := (hs ▸ hperm).nil_eq.symm
      subst this
      simp
  | cons a rest =>
      rw [hs] at hperm hsorted
      have hamem : a ∈ l := hperm.mem_iff.1 (List.mem_cons_self a rest)
      have hgood : GoodInc l (closeInc (newInc 0 a)) := by
        refine ⟨by simp [closeInc, newInc], rfl, ⟨a, hamem, by simp [closeInc, newInc]⟩, ?_⟩
        intro b hb hbid
        simp only [closeInc, newInc] at hbid ⊢
        have hba : b = a := List.inj_on_of_nodup_map hnd hb hamem
          (List.mem_singleton.1 hbid)
        subst hba
        exact ⟨le_refl _, le_refl _⟩
      obtain ⟨h1, h2⟩ := groupSorted_spec gap_minutes l hnd rest (newInc 0 a) 0
        (fun x hx => hperm.mem_iff.1 (List.mem_cons_of_mem a hx))
        hsorted.of_cons
        (fun x hx => List.rel_of_sorted_cons hsorted x hx)
        hgood
      have hids : (groupSorted gap_minutes 0 (newInc 0 a) rest).flatMap (·.anomaly_ids) =
          (a :: rest).map (·.id) := by
        rw [h2]
        simp [newInc]
      have hperm2 : ((a :: rest).map (·.id)).Perm (l.map (·.id)) := hperm.map _
      refine ⟨hids ▸ hperm2, ?_, ?_⟩
      · rw [hids]
        exact hperm2.nodup_iff.2 hnd
      · intro I hI
        obtain ⟨g1, g2, g3, g4⟩ := h1 I hI
        exact ⟨g1, g2, g3, fun b hb hbid => (g4 b hb hbid).1⟩

/-- Two concrete anomalies used to instantiate the grouper theorems. -/
def demoAnomalies : List AnomalyRec :=
  [⟨1, 0, 60, "payment", "error_rate", 5⟩,
   ⟨2, 120, 180, "payment", "p95_latency_ms", 4⟩]

/-- **C10 (witness).** The partition theorem applied to two concrete
anomalies with distinct ids. -/
theorem group_anomalies_partition_witness :
    ((group_anomalies 10 demoAnomalies).flatMap (·.anomaly_ids)).Perm
        (demoAnomalies.map (·.id)) ∧
    ((group_anomalies 10 demoAnomalies).flatMap (·.anomaly_ids)).Nodup ∧
    ∀ I ∈ group_anomalies 10 demoAnomalies,
      I.anomaly_ids ≠ [] ∧ I.status = "OPEN" ∧
      (∃ a ∈ demoAnomalies, a.id ∈ I.anomaly_ids ∧ a.start_ts = I.start_ts) ∧
      ∀ b ∈ demoAnomalies, b.id ∈ I.anomaly_ids → I.start_ts ≤ b.start_ts :=
  group_anomalies_partition 10 demoAnomalies (by decide)

/-- **C7.** The grouper fold's join behaviour: an anomaly joins the open
incident exactly when `(start_ts − open.end_ts)/60 ≤ gap_minutes` or its
service already appears in the open incident; on a join the open
incident's `end_ts` becomes `max(open.end_ts, anomaly.end_ts)`, which
never decreases it; when the test fails the open incident is closed
unchanged and a fresh one is seeded.  Globally, every output incident's
`end_ts` is an upper bound of the `end_ts` of all its member anomalies,
so the extension on joins never shrinks an incident. -/
theorem grouper_join_step (gap_minutes : Int) :
    (∀ (n : Nat) (cur : OpenIncident) (a : AnomalyRec) (rest : List AnomalyRec),
      (joinCond gap_minutes cur a ↔
        ((a.start_ts - cur.end_ts : Int) : ℚ) / 60 ≤ (gap_minutes : ℚ) ∨
          a.service ∈ cur.services) ∧
      (joinCond gap_minutes cur a →
        groupSorted gap_minutes n cur (a :: rest) =
          groupSorted gap_minutes n (joinInc cur a) rest ∧
        (joinInc cur a).end_ts = max cur.end_ts a.end_ts ∧
        cur.end_ts ≤ (joinInc cur a).end_ts) ∧
      (¬ joinCond gap_minutes cur a →
        groupSorted gap_minutes n cur (a :: rest) =
          closeInc cur :: groupSorted gap_minutes (n + 1) (newInc (n + 1) a) rest)) ∧
    ∀ l : List AnomalyRec, (l.map (·.id)).Nodup →
      ∀ I ∈ group_anomalies gap_minutes l, ∀ b ∈ l, b.id ∈ I.anomaly_ids →
        b.end_ts ≤ I.end_ts := by
  constructor
  · intro n cur a rest
    refine ⟨Iff.rfl, ?_, ?_⟩
    · intro hj
      exact ⟨by rw [groupSorted, if_pos hj], rfl, le_max_left _ _⟩
    · intro hj
      rw [groupSorted, if_neg hj]
  · intro l hnd I hI b hb hbid
    have hperm : (l.insertionSort (fun a b : AnomalyRec =>
        a.start_ts ≤ b.start_ts)).Perm l := List.perm_insertionSort _ l
    have hsorted := List.sorted_insertionSort
      (fun a b : AnomalyRec => a.start_ts ≤ b.start_ts) l
    rw [group_anomalies] at hI
    rcases hs : l.insertionSort (fun a b : AnomalyRec =>
        a.start_ts ≤ b.start_ts) with _ | ⟨a, rest⟩
    · rw [hs] at hI
      simp at hI
    · rw [hs] at hI hperm hsorted
      have hamem : a ∈ l := hperm.mem_iff.1 (List.mem_cons_self a rest)
      have hgood : GoodInc l (closeInc (newInc 0 a)) := by
        refine ⟨by simp [closeInc, newInc], rfl,
          ⟨a, hamem, by simp [closeInc, newInc]⟩, ?_⟩
        intro b' hb' hbid'
        simp only [closeInc, newInc] at hbid' ⊢
        have hba : b' = a := List.inj_on_of_nodup_map hnd hb' hamem
          (List.mem_singleton.1 hbid')
        subst hba
        exact ⟨le_refl _, le_refl _⟩
      obtain ⟨h1, _⟩ := groupSorted_spec gap_minutes l hnd rest (newInc 0 a) 0
        (fun x hx => hperm.mem_iff.1 (List.mem_cons_of_mem a hx))
        hsorted.of_cons
        (fun x hx => List.rel_of_sorted_cons hsorted x hx)
        hgood
      exact ((h1 I hI).2.2.2 b hb hbid).2

/-- **C7 (witness).** The join-step theorem applied at `gap_minutes = 10`
to a concrete open incident and anomaly whose gap is 2 minutes (so the
join fires), and the member-end bound applied to the two concrete
anomalies used throughout. -/
theorem grouper_join_step_witness :
    (groupSorted 10 0 (newInc 0 ⟨1, 0, 60, "payment", "error_rate", 5⟩)
        [⟨2, 120, 180, "payment", "p95_latency_ms", 4⟩] =
      groupSorted 10 0 (joinInc (newInc 0 ⟨1, 0, 60, "payment", "error_rate", 5⟩)
        ⟨2, 120, 180, "payment", "p95_latency_ms", 4⟩) [] ∧
      (joinInc (newInc 0 ⟨1, 0, 60, "payment", "error_rate", 5⟩)
          ⟨2, 120, 180, "payment", "p95_latency_ms", 4⟩).end_ts =
        max (newInc 0 ⟨1, 0, 60, "payment", "error_rate", 5⟩).end_ts 180 ∧
      (newInc 0 ⟨1, 0, 60, "payment", "error_rate", 5⟩).end_ts ≤
        (joinInc (newInc 0 ⟨1, 0, 60, "payment", "error_rate", 5⟩)
          ⟨2, 120, 180, "payment", "p95_latency_ms", 4⟩).end_ts) ∧
    ∀ I ∈ group_anomalies 10 demoAnomalies, ∀ b ∈ demoAnomalies,
      b.id ∈ I.anomaly_ids → b.end_ts ≤ I.end_ts :=
  ⟨((grouper_join_step 10).1 0 (newInc 0 ⟨1, 0, 60, "payment", "error_rate", 5⟩)
      ⟨2, 120, 180, "payment", "p95_latency_ms", 4⟩ []).2.1
      (Or.inl (by norm_num [newInc])),
   (grouper_join_step 10).2 demoAnomalies (by decide)⟩

/-! ### Candidate generation: `rca/candidate_generator.py` -/

/-- A candidate dict as produced by `CandidateGenerator.generate_candidates`
and enriched downstream: the generator fills the first five keys, the
feature extractor adds `evidence`, and the ranker adds `score` and `rank`
(absent keys are `none` / `[]`).  Metadata values may be SQL `NULL`,
hence `Option String`. -/
structure Candidate where
  suspect_type : String
  suspect_key : String
  ts : Int
  service : Option String
  metadata : List (String × Option String)
  evidence : List (String × ℚ) := []
  score : Option ℝ := none
  rank : Option Nat := none

/-- A row of the `deployments` table as selected by `_get_deployments`. -/
structure DeploymentRow where
  id : String
  ts : Int
  service : String
  commit_sha : Option String
  version : Option String
  author : Option String
  diff_summary : Option String
  links : Option String

/-- A row of `config_changes` as selected by `_get_config_changes`. -/
structure ConfigRow where
  id : String
  ts : Int
  service : String
  key : String
  old_value_hash : Option String
  new_value_hash : Option String
  diff_summary : Option String
  source : Option String

/-- A row of `feature_flag_changes` as selected by `_get_flag_changes`
(`service` is nullable). -/
structure FlagRow where
  id : String
  ts : Int
  flag_name : String
  service : Option String
  old_state : Option String
  new_state : Option String

/-- Row-to-candidate mapping of `_get_deployments`. -/
def deploymentCandidate (r : DeploymentRow) : Candidate :=
  { suspect_type := "DEPLOYMENT", suspect_key := r.id, ts := r.ts,
    service := some r.service,
    metadata := [("commit_sha", r.commit_sha), ("version", r.version),
      ("author", r.author), ("diff_summary", r.diff_summary),
      ("links", r.links)] }

/-- Row-to-candidate mapping of `_get_config_changes`. -/
def configCandidate (r : ConfigRow) : Candidate :=
  { suspect_type := "CONFIG", suspect_key := r.id, ts := r.ts,
    service := some r.service,
    metadata := [("key", some r.key), ("old_value_hash", r.old_value_hash),
      ("new_value_hash", r.new_value_hash), ("diff_summary", r.diff_summary),
      ("source", r.source)] }

/-- Row-to-candidate mapping of `_get_flag_changes`. -/
def flagCandidate (r : FlagRow) : Candidate :=
  { suspect_type := "FLAG", suspect_key := r.id, ts := r.ts,
    service := r.service,
    metadata := [("flag_name", some r.flag_name), ("old_state", r.old_state),
      ("new_state", r.new_state)] }

/-- The synthesized SERVICE fallback candidate: key `service_⟨name⟩`,
timestamp 30 minutes (1800 s) before the incident start. -/
def serviceFallback (incident_start : Int) (s : String) : Candidate :=
  { suspect_type := "SERVICE", suspect_key := "service_" ++ s,
    ts := incident_start - 30 * 60, service := some s,
    metadata := [("reason",
      some "No deployments/config changes found, analyzing service behavior")] }

/-- Embeds `CandidateGenerator.generate_candidates`.  The three SQL
queries (over the window `[incident.start − lookback, incident.end +
lookforward]`) are externalised: the function takes the row lists those
queries returned.  If all are empty and `affected_services` is non-empty,
one SERVICE fallback candidate per affected service is synthesized. -/
def generate_candidates (deployments : List DeploymentRow)
    (config_changes : List ConfigRow) (flag_changes : List FlagRow)
    (incident_start : Int) (affected_services : List String) : List Candidate :=
  let candidates := deployments.map deploymentCandidate ++
    config_changes.map configCandidate ++ flag_changes.map flagCandidate
  if candidates.isEmpty && !affected_services.isEmpty then
    affected_services.map (serviceFallback incident_start)
  else candidates

/-- **C6.** If the change queries return no rows and `affected_services`
is non-empty, the generator returns exactly one SERVICE candidate per
affected service, with key `service_⟨name⟩` and `ts = incident.start −
30 min`; as soon as at least one change row exists, no SERVICE fallback
candidate appears in the output. -/
theorem generate_candidates_fallback (incident_start : Int)
    (affected : List String) (deployments : List DeploymentRow)
    (config_changes : List ConfigRow) (flag_changes : List FlagRow) :
    (affected ≠ [] →
      generate_candidates [] [] [] incident_start affected =
        affected.map (serviceFallback incident_start) ∧
      ∀ c ∈ generate_candidates [] [] [] incident_start affected,
        c.suspect_type = "SERVICE" ∧
        (∃ s ∈ affected, c.suspect_key = "service_" ++ s ∧ c.service = some s) ∧
        c.ts = incident_start - 30 * 60) ∧
    (deployments ≠ [] ∨ config_changes ≠ [] ∨ flag_changes ≠ [] →
      ∀ c ∈ generate_candidates deployments config_changes flag_changes
          incident_start affected,
        c.suspect_type ≠ "SERVICE") := by
  constructor
  · intro hne
    have heq : generate_candidates [] [] [] incident_start affected =
        affected.map (serviceFallback incident_start) := by
      unfold generate_candidates
      simp [List.isEmpty_iff, hne]
    refine ⟨heq, ?_⟩
    intro c hc
    rw [heq] at hc
    rcases List.mem_map.1 hc with ⟨s, hs, rfl⟩
    exact ⟨rfl, ⟨s, hs, rfl, rfl⟩, rfl⟩
  · intro hne c hc
    unfold generate_candidates at hc
    have hcand : ¬ (deployments.map deploymentCandidate ++
        config_changes.map configCandidate ++
        flag_changes.map flagCandidate).isEmpty = true := by
      simp only [List.isEmpty_iff, List.append_eq_nil, List.map_eq_nil_iff]
      rcases hne with h | h | h <;> tauto
    rw [if_neg (by simp only [Bool.and_eq_true]; tauto)] at hc
    rcases List.mem_append.1 hc with hc' | hc'
    · rcases List.mem_append.1 hc' with hc'' | hc''
      · rcases List.mem_map.1 hc'' with ⟨r, _, rfl⟩
        simp [deploymentCandidate]
      · rcases List.mem_map.1 hc'' with ⟨r, _, rfl⟩
        simp [configCandidate]
    · rcases List.mem_map.1 hc' with ⟨r, _, rfl⟩
      simp [flagCandidate]

/-- **C6 (witness).** The fallback theorem applied to a concrete incident
on `mock-service` with no change rows, and to a run with one deployment
row present. -/
theorem generate_candidates_fallback_witness :
    (generate_candidates [] [] [] 3600 ["mock-service"] =
        ["mock-service"].map (serviceFallback 3600) ∧
      ∀ c ∈ generate_candidates [] [] [] 3600 ["mock-service"],
        c.suspect_type = "SERVICE" ∧
        (∃ s ∈ ["mock-service"], c.suspect_key = "service_" ++ s ∧
          c.service = some s) ∧
        c.ts = 3600 - 30 * 60) ∧
    ∀ c ∈ generate_candidates
        [⟨"d1", 3000, "mock-service", some "abc", none, none, none, none⟩]
        [] [] 3600 ["mock-service"],
      c.suspect_type ≠ "SERVICE" :=
  ⟨(generate_candidates_fallback 3600 ["mock-service"] [] [] []).1
      (by simp),
   (generate_candidates_fallback 3600 ["mock-service"]
      [⟨"d1", 3000, "mock-service", some "abc", none, none, none, none⟩] [] []).2
      (Or.inl (by simp))⟩

/-! ### Feature extraction: `rca/feature_extractor.py`

Each sub-extractor's store queries are externalised as an `Option` query
result; `none` models any exception caught by the surrounding
`try/except` (which logs a warning and returns the zero map).  The Python
`features.update(...)` calls merge maps with pairwise-disjoint key sets,
modelled as list append. -/

/-- `FeatureExtractor.diff_keywords`. -/
def diffKeywords : List String :=
  ["timeout", "retry", "cache", "db", "database", "connection", "pool"]

/-- Character-list prefix test used to model Python's substring operator. -/
def startsWithChars : List Char → List Char → Bool
  | [], _ => true
  | _ :: _, [] => false
  | c :: cs, d :: ds => c == d && startsWithChars cs ds

/-- Character-list substring test (Python `needle in hay`). -/
def containsChars (needle : List Char) : List Char → Bool
  | [] => needle.isEmpty
  | d :: ds => startsWithChars needle (d :: ds) || containsChars needle ds

/-- Python `needle in hay` on strings. -/
def strContains (hay needle : String) : Bool :=
  containsChars needle.toList hay.toList

/-- `_extract_time_features`: minutes before the incident (positive when
the candidate precedes it), the before-flag, and the 1-hour decay score. -/
def extract_time_features (cand : Candidate) (incident_start : Int) :
    List (String × ℚ) :=
  let minutes_before : ℚ := ((incident_start - cand.ts : Int) : ℚ) / 60
  [("minutes_before_incident", minutes_before),
   ("is_before_incident", if 0 ≤ minutes_before then 1 else 0),
   ("time_proximity_score", max 0 (1 - |minutes_before| / 60))]

/-- The candidate's service is among the incident's affected services
(`service not in affected_services` is false; a SQL-`NULL` service is
never in the list). -/
def serviceAffected (cand : Candidate) (affected : List String) : Prop :=
  match cand.service with
  | some s => s ∈ affected
  | none => False

instance (cand : Candidate) (affected : List String) :
    Decidable (serviceAffected cand affected) := by
  unfold serviceAffected
  cases cand.service <;> infer_instance

/-- `max` of a non-empty list (Python `max(deltas)`); `0` on `[]`, which
the caller never hits. -/
def listMax : List ℚ → ℚ
  | [] => 0
  | x :: xs => xs.foldl max x

/-- `_extract_correlation_features`.  `q` carries the two ClickHouse
aggregation results (metric → average value, before and after the
candidate); for non-DEPLOYMENT candidates or services outside the
incident the code returns only the two-key zero map — without
`avg_metric_delta`. -/
def extract_correlation_features (cand : Candidate) (affected : List String)
    (q : Option (List (String × ℚ) × List (String × ℚ))) : List (String × ℚ) :=
  if cand.suspect_type ≠ "DEPLOYMENT" then
    [("metric_delta_count", 0), ("max_metric_delta", 0)]
  else if ¬ serviceAffected cand affected then
    [("metric_delta_count", 0), ("max_metric_delta", 0)]
  else
    match q with
    | none =>
        [("metric_delta_count", 0), ("max_metric_delta", 0),
         ("avg_metric_delta", 0)]
    | some (before_metrics, after_metrics) =>
        let deltas := before_metrics.filterMap fun p =>
          match after_metrics.lookup p.1 with
          | some av => if (0 : ℚ) < p.2 then some (|av - p.2| / p.2) else none
          | none => none
        if deltas.isEmpty then
          [("metric_delta_count", 0), ("max_metric_delta", 0),
           ("avg_metric_delta", 0)]
        else
          [("metric_delta_count", (deltas.length : ℚ)),
           ("max_metric_delta", listMax deltas),
           ("avg_metric_delta", deltas.sum / (deltas.length : ℚ))]

/-- `_extract_log_features`.  `q` carries the before/after ERROR counts
and the `DB_TIMEOUT` count in the after window. -/
def extract_log_features (cand : Candidate) (q : Option (Nat × Nat × Nat)) :
    List (String × ℚ) :=
  if cand.suspect_type ≠ "DEPLOYMENT" then
    [("error_log_delta", 0), ("new_error_signature", 0)]
  else
    match q with
    | none => [("error_log_delta", 0), ("new_error_signature", 0)]
    | some (before_errors, after_errors, db_timeout_count) =>
        [("error_log_delta",
          ((after_errors : ℚ) - (before_errors : ℚ)) / ((max before_errors 1 : Nat) : ℚ)),
         ("new_error_signature", if 0 < db_timeout_count then 1 else 0)]

/-- `candidate.get('metadata', {}).get('diff_summary', '')`, with a SQL
`NULL` value also mapping to the empty string (both are falsy). -/
def diffSummaryOf (cand : Candidate) : String :=
  ((cand.metadata.lookup "diff_summary").getD none).getD ""

/-- Number of distinct keywords occurring in the lower-cased diff. -/
def diffKeywordHits (s : String) : Nat :=
  (diffKeywords.filter fun k => strContains s.toLower k).length

/-- `_extract_diff_features`: for a falsy `diff_summary` the code returns
only the two-key zero map — without `diff_keyword_count`. -/
def extract_diff_features (cand : Candidate) : List (String × ℚ) :=
  let diff_summary := diffSummaryOf cand
  if diff_summary = "" then
    [("diff_length", 0), ("diff_keyword_hit", 0)]
  else
    let keyword_hits := diffKeywordHits diff_summary
    [("diff_length", (diff_summary.length : ℚ)),
     ("diff_keyword_hit", if 0 < keyword_hits then 1 else 0),
     ("diff_keyword_count", (keyword_hits : ℚ))]

/-- `_extract_historical_features`: distinct incidents involving the
candidate's service in the last 30 days (`q`), `0.0` for a falsy service
or a failed query. -/
def extract_historical_features (cand : Candidate) (q : Option Nat) :
    List (String × ℚ) :=
  match cand.service with
  | none => [("service_incident_rate_30d", 0)]
  | some s =>
      if s = "" then [("service_incident_rate_30d", 0)]
      else
        match q with
        | none => [("service_incident_rate_30d", 0)]
        | some n => [("service_incident_rate_30d", (n : ℚ))]

/-- Embeds `FeatureExtractor.extract_features`: the five feature groups
merged in order. -/
def extract_features (cand : Candidate) (incident_start : Int)
    (affected : List String)
    (qCorr : Option (List (String × ℚ) × List (String × ℚ)))
    (qLog : Option (Nat × Nat × Nat)) (qHist : Option Nat) :
    List (String × ℚ) :=
  extract_time_features cand incident_start ++
  extract_correlation_features cand affected qCorr ++
  extract_log_features cand qLog ++
  extract_diff_features cand ++
  extract_historical_features cand qHist

/-- The twelve contractual feature names of §4.4, in order. -/
def contractNames : List String :=
  ["minutes_before_incident", "is_before_incident", "time_proximity_score",
   "metric_delta_count", "max_metric_delta", "avg_metric_delta",
   "error_log_delta", "new_error_signature", "diff_length",
   "diff_keyword_hit", "diff_keyword_count", "service_incident_rate_30d"]

/-- The ten feature names the extractor emits on every path. -/
def alwaysNames : List String :=
  ["minutes_before_incident", "is_before_incident", "time_proximity_score",
   "metric_delta_count", "max_metric_delta",
   "error_log_delta", "new_error_signature", "diff_length",
   "diff_keyword_hit", "service_incident_rate_30d"]

lemma time_keys (cand : Candidate) (s : Int) :
    (extract_time_features cand s).map Prod.fst =
      ["minutes_before_incident", "is_before_incident", "time_proximity_score"] :=
  rfl

lemma log_keys (cand : Candidate) (q : Option (Nat × Nat × Nat)) :
    (extract_log_features cand q).map Prod.fst =
      ["error_log_delta", "new_error_signature"] := by
  unfold extract_log_features
  split
  · rfl
  · rcases q with _ | ⟨⟨b, a, d⟩⟩ <;> rfl

lemma hist_keys (cand : Candidate) (q : Option Nat) :
    (extract_historical_features cand q).map Prod.fst =
      ["service_incident_rate_30d"] := by
  unfold extract_historical_features
  rcases cand.service with _ | s
  · rfl
  · dsimp only
    split
    · rfl
    · rcases q with _ | n <;> rfl

lemma corr_keys_cases (cand : Candidate) (affected : List String)
    (q : Option (List (String × ℚ) × List (String × ℚ))) :
    ((extract_correlation_features cand affected q).map Prod.fst =
        ["metric_delta_count", "max_metric_delta"] ∧
      ¬(cand.suspect_type = "DEPLOYMENT" ∧ serviceAffected cand affected)) ∨
    ((extract_correlation_features cand affected q).map Prod.fst =
        ["metric_delta_count", "max_metric_delta", "avg_metric_delta"] ∧
      cand.suspect_type = "DEPLOYMENT" ∧ serviceAffected cand affected) := by
  unfold extract_correlation_features
  by_cases hdep : cand.suspect_type ≠ "DEPLOYMENT"
  · rw [if_pos hdep]
    exact Or.inl ⟨rfl, fun hh => hdep hh.1⟩
  · rw [if_neg hdep]
    push_neg at hdep
    by_cases haff : serviceAffected cand affected
    · rw [if_neg (not_not_intro haff)]
      refine Or.inr ⟨?_, hdep, haff⟩
      rcases q with _ | ⟨⟨b, a⟩⟩
      · rfl
      · dsimp only
        split <;> rfl
    · rw [if_pos haff]
      exact Or.inl ⟨rfl, fun hh => haff hh.2⟩

lemma diff_keys_cases (cand : Candidate) :
    ((extract_diff_features cand).map Prod.fst =
        ["diff_length", "diff_keyword_hit"] ∧ diffSummaryOf cand = "") ∨
    ((extract_diff_features cand).map Prod.fst =
        ["diff_length", "diff_keyword_hit", "diff_keyword_count"] ∧
      diffSummaryOf cand ≠ "") := by
  unfold extract_diff_features
  by_cases h : diffSummaryOf cand = ""
  · rw [if_pos h]
    exact Or.inl ⟨rfl, h⟩
  · rw [if_neg h]
    exact Or.inr ⟨rfl, h⟩

lemma corr_val_none {cand : Candidate} {affected : List String}
    (hdep : cand.suspect_type = "DEPLOYMENT")
    (haff : serviceAffected cand affected) :
    extract_correlation_features cand affected none =
      [("metric_delta_count", 0), ("max_metric_delta", 0),
       ("avg_metric_delta", 0)] := by
  unfold extract_correlation_features
  rw [if_neg (not_not_intro hdep), if_neg (not_not_intro haff)]

lemma log_val_zero {cand : Candidate} {q : Option (Nat × Nat × Nat)}
    (h : q = none ∨ cand.suspect_type ≠ "DEPLOYMENT") :
    extract_log_features cand q =
      [("error_log_delta", 0), ("new_error_signature", 0)] := by
  unfold extract_log_features
  by_cases hdep : cand.suspect_type ≠ "DEPLOYMENT"
  · rw [if_pos hdep]
  · rw [if_neg hdep]
    rcases h with rfl | h
    · rfl
    · exact absurd h (not_not_intro (not_not.1 hdep) ∘ fun hh => hh)

lemma hist_val_zero {cand : Candidate} :
    extract_historical_features cand none =
      [("service_incident_rate_30d", 0)] := by
  unfold extract_historical_features
  rcases cand.service with _ | s
  · rfl
  · dsimp only
    split <;> rfl

/-- The key list of the extracted feature map decomposes into the five
group key lists. -/
lemma extract_features_keys_decomp (cand : Candidate) (incident_start : Int)
    (affected : List String)
    (qCorr : Option (List (String × ℚ) × List (String × ℚ)))
    (qLog : Option (Nat × Nat × Nat)) (qHist : Option Nat) :
    (extract_features cand incident_start affected qCorr qLog qHist).map
        Prod.fst =
      ["minutes_before_incident", "is_before_incident", "time_proximity_score"] ++
      (extract_correlation_features cand affected qCorr).map Prod.fst ++
      ["error_log_delta", "new_error_signature"] ++
      (extract_diff_features cand).map Prod.fst ++
      ["service_incident_rate_30d"] := by
  unfold extract_features
  simp only [List.map_append, time_keys, log_keys, hist_keys]

lemma lookup_none_of_keys {l : List (String × ℚ)} {keys : List String}
    {k : String} (hl : l.map Prod.fst = keys) (hk : k ∉ keys) :
    l.lookup k = none := by
  apply List.lookup_eq_none_iff.2
  intro p hp
  have hm : p.1 ∈ keys := hl ▸ List.mem_map_of_mem Prod.fst hp
  have hne : k ≠ p.1 := fun he => hk (he ▸ hm)
  simpa using hne

/-- **C5 (counterexample).** For a SERVICE fallback candidate (non-
DEPLOYMENT, empty `diff_summary`) the extracted feature map is missing
two of the twelve contractual names: `avg_metric_delta` (dropped by the
non-DEPLOYMENT early return of `_extract_correlation_features`) and
`diff_keyword_count` (dropped by the empty-diff early return of
`_extract_diff_features`). -/
theorem extract_features_missing_keys_counterexample :
    "avg_metric_delta" ∈ contractNames ∧
    "diff_keyword_count" ∈ contractNames ∧
    "avg_metric_delta" ∉
      (extract_features (serviceFallback 3600 "mock-service") 3600
        ["mock-service"] none none none).map Prod.fst ∧
    "diff_keyword_count" ∉
      (extract_features (serviceFallback 3600 "mock-service") 3600
        ["mock-service"] none none none).map Prod.fst := by
  have h1 : (extract_correlation_features (serviceFallback 3600 "mock-service")
      ["mock-service"] none).map Prod.fst =
      ["metric_delta_count", "max_metric_delta"] := by
    unfold extract_correlation_features
    rw [if_pos (by decide)]
    rfl
  have h2 : (extract_diff_features (serviceFallback 3600 "mock-service")).map
      Prod.fst = ["diff_length", "diff_keyword_hit"] := by
    unfold extract_diff_features
    rw [if_pos (by decide)]
    rfl
  refine ⟨by decide, by decide, ?_, ?_⟩ <;>
  · rw [extract_features_keys_decomp, h1, h2]
    decide

/-- **C5 (amended).** The extractor is total (exceptions are absorbed per
feature group) and always emits ten of the twelve contractual names, with
`0.0` on the error paths; but `avg_metric_delta` is present exactly when
the candidate is a DEPLOYMENT on an affected service, and
`diff_keyword_count` exactly when `diff_summary` is non-empty — the map
is *not* complete for non-DEPLOYMENT candidates or empty diffs. -/
theorem extract_features_keys (cand : Candidate) (incident_start : Int)
    (affected : List String)
    (qCorr : Option (List (String × ℚ) × List (String × ℚ)))
    (qLog : Option (Nat × Nat × Nat)) (qHist : Option Nat) :
    (∀ n ∈ alwaysNames,
      n ∈ (extract_features cand incident_start affected qCorr qLog qHist).map
        Prod.fst) ∧
    ("avg_metric_delta" ∈
        (extract_features cand incident_start affected qCorr qLog qHist).map
          Prod.fst ↔
      cand.suspect_type = "DEPLOYMENT" ∧ serviceAffected cand affected) ∧
    ("diff_keyword_count" ∈
        (extract_features cand incident_start affected qCorr qLog qHist).map
          Prod.fst ↔
      diffSummaryOf cand ≠ "") ∧
    (qCorr = none → cand.suspect_type = "DEPLOYMENT" →
      serviceAffected cand affected →
      (extract_features cand incident_start affected qCorr qLog qHist).lookup
        "avg_metric_delta" = some 0) ∧
    (qLog = none ∨ cand.suspect_type ≠ "DEPLOYMENT" →
      (extract_features cand incident_start affected qCorr qLog qHist).lookup
          "error_log_delta" = some 0 ∧
      (extract_features cand incident_start affected qCorr qLog qHist).lookup
          "new_error_signature" = some 0) ∧
    (qHist = none →
      (extract_features cand incident_start affected qCorr qLog qHist).lookup
        "service_incident_rate_30d" = some 0) := by
  have hdecomp := extract_features_keys_decomp cand incident_start affected
    qCorr qLog qHist
  have hcorr := corr_keys_cases cand affected qCorr
  have hdiff := diff_keys_cases cand
  refine ⟨?_, ?_, ?_, ?_, ?_, ?_⟩
  · rw [hdecomp]
    rcases hcorr with ⟨hc, _⟩ | ⟨hc, _⟩ <;> rcases hdiff with ⟨hd, _⟩ | ⟨hd, _⟩ <;>
      rw [hc, hd] <;> decide
  · rcases hcorr with ⟨hc, hcond⟩ | ⟨hc, hcond⟩
    · constructor
      · intro h
        exfalso
        rw [hdecomp, hc] at h
        rcases hdiff with ⟨hd, _⟩ | ⟨hd, _⟩ <;> rw [hd] at h <;>
          exact absurd h (by decide)
      · intro h
        exact absurd h hcond
    · constructor
      · intro _
        exact hcond
      · intro _
        rw [hdecomp, hc]
        rcases hdiff with ⟨hd, _⟩ | ⟨hd, _⟩ <;> rw [hd] <;> decide
  · rcases hdiff with ⟨hd, hcond⟩ | ⟨hd, hcond⟩
    · constructor
      · intro h
        exfalso
        rw [hdecomp, hd] at h
        rcases hcorr with ⟨hc, _⟩ | ⟨hc, _⟩ <;> rw [hc] at h <;>
          exact absurd h (by decide)
      · intro h
        exact absurd hcond h
    · refine ⟨fun _ => hcond, fun _ => ?_⟩
      rw [hdecomp, hd]
      rcases hcorr with ⟨hc, _⟩ | ⟨hc, _⟩ <;> rw [hc] <;> decide
  · intro hq hdep haff
    subst hq
    unfold extract_features
    rw [corr_val_none hdep haff]
    rfl
  · intro hq
    unfold extract_features
    rw [log_val_zero hq]
    simp only [List.append_assoc, List.lookup_append]
    have hc1 : (extract_correlation_features cand affected qCorr).lookup
        "error_log_delta" = none := by
      rcases hcorr with ⟨hc, _⟩ | ⟨hc, _⟩ <;>
        exact lookup_none_of_keys hc (by decide)
    have hc2 : (extract_correlation_features cand affected qCorr).lookup
        "new_error_signature" = none := by
      rcases hcorr with ⟨hc, _⟩ | ⟨hc, _⟩ <;>
        exact lookup_none_of_keys hc (by decide)
    constructor
    · rw [hc1]
      rfl
    · rw [hc2]
      rfl
  · intro hq
    subst hq
    unfold extract_features
    rw [hist_val_zero]
    simp only [List.append_assoc, List.lookup_append]
    have hc3 : (extract_correlation_features cand affected qCorr).lookup
        "service_incident_rate_30d" = none := by
      rcases hcorr with ⟨hc, _⟩ | ⟨hc, _⟩ <;>
        exact lookup_none_of_keys hc (by decide)
    have hl3 : (extract_log_features cand qLog).lookup
        "service_incident_rate_30d" = none :=
      lookup_none_of_keys (log_keys cand qLog) (by decide)
    have hd3 : (extract_diff_features cand).lookup
        "service_incident_rate_30d" = none := by
      rcases hdiff with ⟨hd, _⟩ | ⟨hd, _⟩ <;>
        exact lookup_none_of_keys hd (by decide)
    rw [hc3, hl3, hd3]
    rfl

/-- **C5 (witness).** The amended key-characterization applied to a
concrete DEPLOYMENT candidate on an affected service with all three
store queries failing. -/
theorem extract_features_keys_witness :
    (∀ n ∈ alwaysNames,
      n ∈ (extract_features (deploymentCandidate
        ⟨"d1", 3000, "mock-service", some "abc", none, none,
          some "tuned db pool timeout", none⟩) 3600 ["mock-service"]
        none none none).map Prod.fst) ∧
    "avg_metric_delta" ∈ (extract_features (deploymentCandidate
        ⟨"d1", 3000, "mock-service", some "abc", none, none,
          some "tuned db pool timeout", none⟩) 3600 ["mock-service"]
        none none none).map Prod.fst ∧
    (extract_features (deploymentCandidate
        ⟨"d1", 3000, "mock-service", some "abc", none, none,
          some "tuned db pool timeout", none⟩) 3600 ["mock-service"]
        none none none).lookup "avg_metric_delta" = some 0 ∧
    (extract_features (deploymentCandidate
        ⟨"d1", 3000, "mock-service", some "abc", none, none,
          some "tuned db pool timeout", none⟩) 3600 ["mock-service"]
        none none none).lookup "error_log_delta" = some 0 ∧
    (extract_features (deploymentCandidate
        ⟨"d1", 3000, "mock-service", some "abc", none, none,
          some "tuned db pool timeout", none⟩) 3600 ["mock-service"]
        none none none).lookup "service_incident_rate_30d" = some 0 :=
  have thm := extract_features_keys (deploymentCandidate
    ⟨"d1", 3000, "mock-service", some "abc", none, none,
      some "tuned db pool timeout", none⟩) 3600 ["mock-service"]
    none none none
  ⟨thm.1, thm.2.1.2 ⟨rfl, by decide⟩, thm.2.2.2.1 rfl rfl (by decide),
    (thm.2.2.2.2.1 (Or.inl rfl)).1, thm.2.2.2.2.2 rfl⟩

/-! ### Rankers: `rca/ranker.py` and `rca/ml_ranker.py`

Scores involve `math.exp` (and, in learned mode, a logistic-regression
probability), so they live in `ℝ`; evidence values remain `ℚ`. -/

/-- `evidence.get(name, default)`. -/
def getFeat (evidence : List (String × ℚ)) (k : String) (d : ℚ) : ℚ :=
  (evidence.lookup k).getD d

/-- Embeds `HeuristicRanker._compute_score`, accumulation order as in the
source: 3·is_before, plus the exp decay when `is_before > 0` (with
`minutes_before_incident` defaulting to 60), plus 2.5·min(1, max_delta),
2·clamp(error_delta/10, 0, 1), 1.5·new_error_signature and
1·diff_keyword_hit; every other absent feature defaults to 0. -/
noncomputable def compute_score (evidence : List (String × ℚ)) : ℝ :=
  let is_before := getFeat evidence "is_before_incident" 0
  let s1 : ℝ := 3.0 * (is_before : ℝ)
  let s2 : ℝ :=
    if 0 < is_before then
      s1 + 2.0 * Real.exp
        (((-|getFeat evidence "minutes_before_incident" 60| / 30 : ℚ) : ℝ))
    else s1
  s2 + 2.5 * ((min 1 (getFeat evidence "max_metric_delta" 0) : ℚ) : ℝ)
    + 2.0 * ((min 1 (max 0 (getFeat evidence "error_log_delta" 0 / 10)) : ℚ) : ℝ)
    + 1.5 * ((getFeat evidence "new_error_signature" 0 : ℚ) : ℝ)
    + 1.0 * ((getFeat evidence "diff_keyword_hit" 0 : ℚ) : ℝ)

/-- The heuristic formula exactly as the claim states it: the exp term is
included *only when `is_before_incident` equals 1*. -/
noncomputable def claim_score (evidence : List (String × ℚ)) : ℝ :=
  3.0 * ((getFeat evidence "is_before_incident" 0 : ℚ) : ℝ) +
  (if getFeat evidence "is_before_incident" 0 = 1 then
      2.0 * Real.exp
        (((-|getFeat evidence "minutes_before_incident" 60| / 30 : ℚ) : ℝ))
    else 0) +
  2.5 * ((min 1 (getFeat evidence "max_metric_delta" 0) : ℚ) : ℝ) +
  2.0 * ((min 1 (max 0 (getFeat evidence "error_log_delta" 0 / 10)) : ℚ) : ℝ) +
  1.5 * ((getFeat evidence "new_error_signature" 0 : ℚ) : ℝ) +
  1.0 * ((getFeat evidence "diff_keyword_hit" 0 : ℚ) : ℝ)

/-- The claim's formula amended to match the code: the exp term is
included whenever `is_before_incident > 0`. -/
noncomputable def claim_score_amended (evidence : List (String × ℚ)) : ℝ :=
  3.0 * ((getFeat evidence "is_before_incident" 0 : ℚ) : ℝ) +
  (if 0 < getFeat evidence "is_before_incident" 0 then
      2.0 * Real.exp
        (((-|getFeat evidence "minutes_before_incident" 60| / 30 : ℚ) : ℝ))
    else 0) +
  2.5 * ((min 1 (getFeat evidence "max_metric_delta" 0) : ℚ) : ℝ) +
  2.0 * ((min 1 (max 0 (getFeat evidence "error_log_delta" 0 / 10)) : ℚ) : ℝ) +
  1.5 * ((getFeat evidence "new_error_signature" 0 : ℚ) : ℝ) +
  1.0 * ((getFeat evidence "diff_keyword_hit" 0 : ℚ) : ℝ)

/-- **C3 (counterexample).** On the evidence map
`is_before_incident = 0.5` the code adds the exp decay term (its
condition is `is_before > 0`), while the claim's formula (exp term only
when `is_before_incident = 1`) does not: the two disagree by
`2·exp(−2) > 0`. -/
theorem compute_score_halfBefore_counterexample :
    compute_score [("is_before_incident", 1 / 2)] ≠
      claim_score [("is_before_incident", 1 / 2)] := by
  have h1 : getFeat [("is_before_incident", (1 / 2 : ℚ))] "is_before_incident" 0 =
      1 / 2 := rfl
  have h2 : getFeat [("is_before_incident", (1 / 2 : ℚ))]
      "minutes_before_incident" 60 = 60 := rfl
  have h3 : getFeat [("is_before_incident", (1 / 2 : ℚ))] "max_metric_delta" 0 =
      0 := rfl
  have h4 : getFeat [("is_before_incident", (1 / 2 : ℚ))] "error_log_delta" 0 =
      0 := rfl
  have h5 : getFeat [("is_before_incident", (1 / 2 : ℚ))] "new_error_signature" 0 =
      0 := rfl
  have h6 : getFeat [("is_before_incident", (1 / 2 : ℚ))] "diff_keyword_hit" 0 =
      0 := rfl
  unfold compute_score claim_score
  rw [h1, h2, h3, h4, h5, h6]
  dsimp only
  rw [if_pos (by norm_num : (0 : ℚ) < 1 / 2),
    if_neg (by norm_num : ¬ (1 / 2 : ℚ) = 1)]
  intro h
  have h0 : ((1 : ℚ) ⊓ (0 : ℚ)) = 0 := by norm_num
  have h0' : ((1 : ℚ) ⊓ ((0 : ℚ) ⊔ 0 / 10)) = 0 := by norm_num
  rw [h0, h0'] at h
  push_cast at h
  have hexp : (0 : ℝ) < Real.exp (-|(60 : ℝ)| / 30) := Real.exp_pos _
  linarith

/-- **C3 (amended).** For every evidence map, the heuristic score of
`HeuristicRanker._compute_score` equals the claimed sum with the exp term
condition amended from `is_before_incident = 1` to
`is_before_incident > 0` (each absent feature contributing 0, except
`minutes_before_incident`, which defaults to 60). -/
theorem compute_score_formula (evidence : List (String × ℚ)) :
    compute_score evidence = claim_score_amended evidence := by
  unfold compute_score claim_score_amended
  dsimp only
  by_cases h : 0 < getFeat evidence "is_before_incident" 0
  · rw [if_pos h, if_pos h]
  · rw [if_neg h, if_neg h]
    ring

/-- `x['score']` of a scored candidate (the sort key; every candidate is
scored before sorting, so the `getD` default is never hit). -/
noncomputable def scoreKey (c : Candidate) : ℝ := c.score.getD 0

/-- The comparison of `scored.sort(key=lambda x: x['score'], reverse=True)`:
`a` may stay before `b` iff `b`'s score is at most `a`'s.  Python's sort
is stable also under `reverse=True` (equal elements keep input order),
which stable insertion sort models. -/
def rankRel (a b : Candidate) : Prop := scoreKey b ≤ scoreKey a

noncomputable instance : DecidableRel rankRel :=
  fun a b => Real.decidableLE _ _

instance : IsTotal Candidate rankRel := ⟨fun a b => le_total _ _⟩

instance : IsTrans Candidate rankRel :=
  ⟨fun _ _ _ h1 h2 => le_trans h2 h1⟩

/-- The `for i, candidate in enumerate(scored): candidate['rank'] = i + 1`
loop (starting from rank `i`). -/
def assignRanks : List Candidate → Nat → List Candidate
  | [], _ => []
  | c :: cs, i => { c with rank := some i } :: assignRanks cs (i + 1)

/-- Sort by score descending (stable) and assign ranks 1..N — the shared
tail of `HeuristicRanker.rank` and `MLRanker.rank`. -/
noncomputable def sortAndRank (scored : List Candidate) : List Candidate :=
  assignRanks (scored.insertionSort rankRel) 1

/-- Embeds `HeuristicRanker.rank`: attach `score` from `_compute_score`
of each candidate's evidence, then sort and rank. -/
noncomputable def heuristicRank (candidates : List Candidate) : List Candidate :=
  sortAndRank (candidates.map fun c =>
    { c with score := some (compute_score c.evidence) })

/-- A loaded model artifact: `{model, feature_names}` with the linear
coefficients and intercept of the binary `LogisticRegression`. -/
structure MLModel where
  weights : List ℝ
  intercept : ℝ
  feature_names : Option (List String)

/-- The hard-coded fallback feature order of `MLRanker._extract_features`
when the artifact carries no `feature_names`. -/
def defaultFeatureNames : List String :=
  ["is_before_incident", "time_proximity_score", "minutes_before_incident",
   "metric_delta_count", "max_metric_delta", "avg_metric_delta",
   "error_log_delta", "new_error_signature", "diff_keyword_hit",
   "diff_keyword_count", "service_incident_rate_30d"]

/-- The feature order used for prediction. -/
def modelFeatureNames (m : MLModel) : List String :=
  m.feature_names.getD defaultFeatureNames

/-- The positive-class probability of the binary logistic-regression
model (`model.predict_proba(X)[:, 1]`, modelled row-wise as the sigmoid
of the affine score over the ordered feature vector
`[evidence.get(name, 0.0) for name in feature_names]`). -/
noncomputable def mlScore (m : MLModel) (evidence : List (String × ℚ)) : ℝ :=
  let x := (modelFeatureNames m).map fun n => ((getFeat evidence n 0 : ℚ) : ℝ)
  1 / (1 + Real.exp (-((List.zipWith (· * ·) m.weights x).sum + m.intercept)))

/-- Embeds `MLRanker.rank`: with no loaded model fall back to
`HeuristicRanker.rank`, otherwise score by `predict_proba[:, 1]` and
sort-and-rank identically. -/
noncomputable def mlRank (model : Option MLModel) (candidates : List Candidate) :
    List Candidate :=
  match model with
  | none => heuristicRank candidates
  | some m => sortAndRank (candidates.map fun c =>
      { c with score := some (mlScore m c.evidence) })

/-- Candidate with its `rank` key cleared (for stating that ranking
changes nothing but `rank`). -/
def eraseRank (c : Candidate) : Candidate := { c with rank := none }

/-- Candidate with its `score` and `rank` keys cleared. -/
def eraseScoreRank (c : Candidate) : Candidate :=
  { c with score := none, rank := none }

lemma assignRanks_map_rank :
    ∀ (l : List Candidate) (i : Nat),
      (assignRanks l i).map (·.rank) = (List.range' i l.length).map some
  | [], _ => rfl
  | c :: cs, i => by
      simp only [assignRanks, List.map_cons, List.length_cons, List.range',
        assignRanks_map_rank cs (i + 1)]

lemma assignRanks_length : ∀ (l : List Candidate) (i : Nat),
    (assignRanks l i).length = l.length
  | [], _ => rfl
  | c :: cs, i => by
      simp only [assignRanks, List.length_cons, assignRanks_length cs (i + 1)]

lemma assignRanks_map_eraseRank : ∀ (l : List Candidate) (i : Nat),
    (assignRanks l i).map eraseRank = l.map eraseRank
  | [], _ => rfl
  | c :: cs, i => by
      simp only [assignRanks, List.map_cons, assignRanks_map_eraseRank cs (i + 1)]
      rfl

lemma mem_assignRanks : ∀ {l : List Candidate} {i : Nat} {d : Candidate},
    d ∈ assignRanks l i → ∃ x ∈ l, ∃ j, d = { x with rank := some j }
  | [], _, _, h => by simp [assignRanks] at h
  | c :: cs, i, d, h => by
      rcases List.mem_cons.1 h with rfl | h'
      · exact ⟨c, List.mem_cons_self _ _, i, rfl⟩
      · rcases mem_assignRanks h' with ⟨x, hx, j, rfl⟩
        exact ⟨x, List.mem_cons_of_mem _ hx, j, rfl⟩

lemma assignRanks_pairwise {R : Candidate → Candidate → Prop}
    (hR : ∀ a b i j, R a b → R { a with rank := some i } { b with rank := some j }) :
    ∀ (l : List Candidate) (i : Nat), l.Pairwise R →
      (assignRanks l i).Pairwise R
  | [], _, _ => List.Pairwise.nil
  | c :: cs, i, h => by
      rcases List.pairwise_cons.1 h with ⟨hhead, htail⟩
      refine List.pairwise_cons.2 ⟨?_, assignRanks_pairwise hR cs (i + 1) htail⟩
      intro d hd
      rcases mem_assignRanks hd with ⟨x, hx, j, rfl⟩
      exact hR c x i j (hhead x hx)

lemma assignRanks_map_eraseScoreRank : ∀ (l : List Candidate) (i : Nat),
    (assignRanks l i).map eraseScoreRank = l.map eraseScoreRank
  | [], _ => rfl
  | c :: cs, i => by
      simp only [assignRanks, List.map_cons,
        assignRanks_map_eraseScoreRank cs (i + 1)]
      rfl

/-- Shared contract of the sort-and-rank tail for any scoring function:
length preserved, candidates carried over unmodified except `score` and
`rank`, every output element scored from its own evidence, ranks exactly
`[1, …, N]` in order, scores non-increasing along the output, and
stability — equal-score candidates keep their input order. -/
lemma sortAndRank_spec (f : List (String × ℚ) → ℝ) (candidates : List Candidate) :
    (sortAndRank (candidates.map fun c =>
        { c with score := some (f c.evidence) })).length = candidates.length ∧
    ((sortAndRank (candidates.map fun c =>
        { c with score := some (f c.evidence) })).map eraseScoreRank).Perm
      (candidates.map eraseScoreRank) ∧
    (∀ c ∈ sortAndRank (candidates.map fun c =>
        { c with score := some (f c.evidence) }),
      c.score = some (f c.evidence) ∧ c.rank ≠ none) ∧
    (sortAndRank (candidates.map fun c =>
        { c with score := some (f c.evidence) })).map (·.rank) =
      (List.range' 1 candidates.length).map some ∧
    (sortAndRank (candidates.map fun c =>
        { c with score := some (f c.evidence) })).Pairwise
      (fun a b => scoreKey b ≤ scoreKey a) ∧
    ∀ a b, [a, b] <+ (candidates.map fun c =>
        { c with score := some (f c.evidence) }) →
      scoreKey a = scoreKey b →
      [eraseRank a, eraseRank b] <+ (sortAndRank (candidates.map fun c =>
        { c with score := some (f c.evidence) })).map eraseRank := by
  set scored := candidates.map fun c => { c with score := some (f c.evidence) }
    with hscored
  have hlen : (scored.insertionSort rankRel).length = candidates.length := by
    rw [List.length_insertionSort, hscored, List.length_map]
  refine ⟨?_, ?_, ?_, ?_, ?_, ?_⟩
  · rw [sortAndRank, assignRanks_length, hlen]
  · rw [sortAndRank, assignRanks_map_eraseScoreRank]
    refine ((List.perm_insertionSort rankRel scored).map eraseScoreRank).trans ?_
    rw [hscored, List.map_map]
    exact List.Perm.refl _
  · intro c hc
    rcases mem_assignRanks hc with ⟨x, hx, j, rfl⟩
    have hx' := (List.mem_insertionSort rankRel).1 hx
    rw [hscored] at hx'
    rcases List.mem_map.1 hx' with ⟨c0, _, rfl⟩
    exact ⟨rfl, by simp⟩
  · rw [sortAndRank, assignRanks_map_rank, hlen]
  · have hsorted : (scored.insertionSort rankRel).Pairwise rankRel :=
      List.sorted_insertionSort rankRel scored
    exact assignRanks_pairwise (fun a b i j h => h) _ 1 hsorted
  · intro a b hab heq
    have hr : rankRel a b := le_of_eq heq.symm
    have hsub : [a, b] <+ scored.insertionSort rankRel :=
      List.pair_sublist_insertionSort hr hab
    have := hsub.map eraseRank
    rwa [sortAndRank, assignRanks_map_eraseRank]

/-- **C9.** In both modes the ranker's output is a permutation of its
input extended with exactly `score` and `rank`: same length, the
candidates stripped of `score`/`rank` are a permutation of the input so
stripped (nothing dropped, duplicated or otherwise modified), and every
output element carries a `score` computed from its own evidence and a
`rank`.  (`MLRanker.rank` with no loaded model falls back to the
heuristic ranker.) -/
theorem rank_is_permutation (candidates : List Candidate) :
    ((heuristicRank candidates).length = candidates.length ∧
      ((heuristicRank candidates).map eraseScoreRank).Perm
        (candidates.map eraseScoreRank) ∧
      ∀ c ∈ heuristicRank candidates,
        c.score = some (compute_score c.evidence) ∧ c.rank ≠ none) ∧
    (mlRank none candidates = heuristicRank candidates) ∧
    ∀ m : MLModel,
      (mlRank (some m) candidates).length = candidates.length ∧
      ((mlRank (some m) candidates).map eraseScoreRank).Perm
        (candidates.map eraseScoreRank) ∧
      ∀ c ∈ mlRank (some m) candidates,
        c.score = some (mlScore m c.evidence) ∧ c.rank ≠ none := by
  obtain ⟨h1, h2, h3, _, _, _⟩ := sortAndRank_spec compute_score candidates
  refine ⟨⟨h1, h2, h3⟩, rfl, ?_⟩
  intro m
  obtain ⟨g1, g2, g3, _, _, _⟩ := sortAndRank_spec (mlScore m) candidates
  exact ⟨g1, g2, g3⟩

/-- **C9 (witness).** The permutation contract applied to a concrete
two-candidate list. -/
theorem rank_is_permutation_witness :
    ((heuristicRank [serviceFallback 3600 "mock-service"]).length = 1 ∧
      ((heuristicRank [serviceFallback 3600 "mock-service"]).map
        eraseScoreRank).Perm
        ([serviceFallback 3600 "mock-service"].map eraseScoreRank) ∧
      ∀ c ∈ heuristicRank [serviceFallback 3600 "mock-service"],
        c.score = some (compute_score c.evidence) ∧ c.rank ≠ none) ∧
    (mlRank none [serviceFallback 3600 "mock-service"] =
      heuristicRank [serviceFallback 3600 "mock-service"]) ∧
    ∀ m : MLModel,
      (mlRank (some m) [serviceFallback 3600 "mock-service"]).length = 1 ∧
      ((mlRank (some m) [serviceFallback 3600 "mock-service"]).map
        eraseScoreRank).Perm
        ([serviceFallback 3600 "mock-service"].map eraseScoreRank) ∧
      ∀ c ∈ mlRank (some m) [serviceFallback 3600 "mock-service"],
        c.score = some (mlScore m c.evidence) ∧ c.rank ≠ none :=
  rank_is_permutation [serviceFallback 3600 "mock-service"]

/-- Deterministic tie-break order claimed by the spec: by `suspect_type`,
then by `suspect_key`. -/
def lexTypeKey (a b : Candidate) : Prop :=
  a.suspect_type < b.suspect_type ∨
    (a.suspect_type = b.suspect_type ∧
      (a.suspect_key < b.suspect_key ∨ a.suspect_key = b.suspect_key))

/-- The ranking contract exactly as claimed: ranks `[1, …, N]`, scores
strictly ordered or tied with the `suspect_type`/`suspect_key`
tie-break along the output. -/
def RankedContract (out : List Candidate) : Prop :=
  out.map (·.rank) = (List.range' 1 out.length).map some ∧
  out.Pairwise (fun a b => scoreKey b ≤ scoreKey a) ∧
  out.Chain' (fun a b => scoreKey b < scoreKey a ∨
    (scoreKey a = scoreKey b ∧ lexTypeKey a b))

/-- A FLAG candidate with empty evidence (heuristic score 0). -/
def cexFlag : Candidate := ⟨"FLAG", "z", 0, none, [], [], none, none⟩

/-- A DEPLOYMENT candidate with empty evidence (heuristic score 0). -/
def cexDep : Candidate := ⟨"DEPLOYMENT", "a", 0, none, [], [], none, none⟩

lemma compute_score_nil : compute_score [] = 0 := by
  unfold compute_score getFeat
  norm_num [List.lookup]

lemma heuristicRank_pair :
    heuristicRank [cexFlag, cexDep] =
      [{ cexFlag with score := some 0, rank := some 1 },
       { cexDep with score := some 0, rank := some 2 }] := by
  unfold heuristicRank sortAndRank
  have hmap : ([cexFlag, cexDep].map fun c =>
      { c with score := some (compute_score c.evidence) }) =
      [{ cexFlag with score := some 0 }, { cexDep with score := some 0 }] := by
    simp only [List.map_cons, List.map_nil]
    rw [show cexFlag.evidence = [] from rfl, show cexDep.evidence = [] from rfl,
      compute_score_nil]
  rw [hmap]
  have hsort : ([{ cexFlag with score := some 0 },
      { cexDep with score := some 0 }] : List Candidate).insertionSort rankRel =
      [{ cexFlag with score := some 0 }, { cexDep with score := some 0 }] := by
    simp only [List.insertionSort, List.orderedInsert]
    rw [if_pos (show rankRel { cexFlag with score := some 0 }
      { cexDep with score := some 0 } from le_refl (0 : ℝ))]
  rw [hsort]
  rfl

/-- **C2 (counterexample).** Two candidates with equal scores (empty
evidence, so both score 0): the FLAG candidate precedes the DEPLOYMENT
candidate in the input and keeps rank 1 in the output (Python's sort is
stable), although the claimed `suspect_type`-then-`suspect_key`
tie-break would order DEPLOYMENT before FLAG. -/
theorem rank_tiebreak_counterexample :
    ¬ RankedContract (heuristicRank [cexFlag, cexDep]) := by
  rw [heuristicRank_pair]
  rintro ⟨-, -, hchain⟩
  have hr := List.chain'_pair.1 hchain
  rcases hr with hlt | ⟨-, hlex⟩
  · exact absurd hlt (lt_irrefl (0 : ℝ))
  · rcases hlex with hlt2 | ⟨heq2, -⟩
    · refine absurd hlt2 ?_
      show ¬ ("FLAG" < "DEPLOYMENT")
      rw [String.lt_iff_toList_lt]
      decide
    · refine absurd heq2 ?_
      show ¬ ("FLAG" = "DEPLOYMENT")
      decide

/-- **C2 (amended).** For every non-empty candidate list, in both ranker
modes: the output ranks are exactly `[1, …, N]` in output order (so the
rank set is `{1, …, N}` with no gaps or duplicates), the output is
ordered by score descending, and equal-score ties are broken by *input
order* (the sort is stable) — not by `suspect_type`/`suspect_key`. -/
theorem rank_contract_stable (candidates : List Candidate)
    (hne : candidates ≠ []) :
    ((heuristicRank candidates).map (·.rank) =
        (List.range' 1 candidates.length).map some ∧
      (heuristicRank candidates).Pairwise (fun a b => scoreKey b ≤ scoreKey a) ∧
      ∀ a b, [a, b] <+ (candidates.map fun c =>
          { c with score := some (compute_score c.evidence) }) →
        scoreKey a = scoreKey b →
        [eraseRank a, eraseRank b] <+ (heuristicRank candidates).map eraseRank) ∧
    ∀ m : MLModel,
      (mlRank (some m) candidates).map (·.rank) =
        (List.range' 1 candidates.length).map some ∧
      (mlRank (some m) candidates).Pairwise
        (fun a b => scoreKey b ≤ scoreKey a) ∧
      ∀ a b, [a, b] <+ (candidates.map fun c =>
          { c with score := some (mlScore m c.evidence) }) →
        scoreKey a = scoreKey b →
        [eraseRank a, eraseRank b] <+ (mlRank (some m) candidates).map eraseRank := by
  obtain ⟨_, _, _, h4, h5, h6⟩ := sortAndRank_spec compute_score candidates
  refine ⟨⟨h4, h5, h6⟩, ?_⟩
  intro m
  obtain ⟨_, _, _, g4, g5, g6⟩ := sortAndRank_spec (mlScore m) candidates
  exact ⟨g4, g5, g6⟩

/-- **C2 (witness).** The amended contract applied to the concrete
two-candidate list of the counterexample. -/
theorem rank_contract_stable_witness :
    ((heuristicRank [cexFlag, cexDep]).map (·.rank) =
        (List.range' 1 2).map some ∧
      (heuristicRank [cexFlag, cexDep]).Pairwise
        (fun a b => scoreKey b ≤ scoreKey a) ∧
      ∀ a b, [a, b] <+ ([cexFlag, cexDep].map fun c =>
          { c with score := some (compute_score c.evidence) }) →
        scoreKey a = scoreKey b →
        [eraseRank a, eraseRank b] <+
          (heuristicRank [cexFlag, cexDep]).map eraseRank) ∧
    ∀ m : MLModel,
      (mlRank (some m) [cexFlag, cexDep]).map (·.rank) =
        (List.range' 1 2).map some ∧
      (mlRank (some m) [cexFlag, cexDep]).Pairwise
        (fun a b => scoreKey b ≤ scoreKey a) ∧
      ∀ a b, [a, b] <+ ([cexFlag, cexDep].map fun c =>
          { c with score := some (mlScore m c.evidence) }) →
        scoreKey a = scoreKey b →
        [eraseRank a, eraseRank b] <+
          (mlRank (some m) [cexFlag, cexDep]).map eraseRank :=
  rank_contract_stable [cexFlag, cexDep] (List.cons_ne_nil _ _)

/-! ### Suspect persistence: `rca/job.py` (`RCAWorker._store_suspects`)

The Python acquires a pool connection and runs `DELETE FROM suspects
WHERE incident_id = $1` followed by one `INSERT` per ranked suspect —
*without* an `async with conn.transaction():` block.  asyncpg executes
each statement in autocommit mode outside an explicit transaction, so the
delete and every insert commit individually.  `failAt = some k` models an
exception raised by the k-th insert (0-based): the delete and the first
`k` inserts have already committed and remain visible; `failAt = none`
models a run where every insert succeeds. -/

/-- A row of the `suspects` table. -/
structure SuspectRow where
  id : String
  incident_id : String
  suspect_type : String
  suspect_key : String
  rank : Nat
  score : ℚ
  evidence : String
deriving DecidableEq

/-- Embeds `RCAWorker._store_suspects` under asyncpg autocommit
semantics: first the committed delete of the incident's rows, then the
prefix of inserts that succeeded (each insert stamps `incident_id`). -/
def store_suspects (table : List SuspectRow) (incident_id : String)
    (rows : List SuspectRow) (failAt : Option Nat) : List SuspectRow :=
  let afterDelete := table.filter fun r => r.incident_id != incident_id
  let toInsert := rows.map fun r => { r with incident_id := incident_id }
  afterDelete ++
    toInsert.take (match failAt with | none => toInsert.length | some k => k)

/-- **C4 (counterexample).** One prior suspect is stored for `inc1`; the
new ranked list has two rows and the second insert fails.  If the
delete-then-insert ran in one transaction the incident's stored suspects
would be unchanged; instead the prior suspect is gone and only the first
new row is visible — a partial write. -/
theorem store_suspects_not_atomic_counterexample :
    ¬ ((store_suspects
        [⟨"old1", "inc1", "DEPLOYMENT", "d0", 1, 5, "e0"⟩] "inc1"
        [⟨"n1", "inc1", "CONFIG", "c1", 1, 4, "e1"⟩,
         ⟨"n2", "inc1", "CONFIG", "c2", 2, 3, "e2"⟩] (some 1)).filter
          (fun r => r.incident_id == "inc1") =
      ([⟨"old1", "inc1", "DEPLOYMENT", "d0", 1, 5, "e0"⟩] :
          List SuspectRow).filter (fun r => r.incident_id == "inc1")) := by
  decide

/-- **C4 (amended).** `_store_suspects` is *not* atomic: the delete and
each insert commit individually.  Rows of other incidents are never
touched; when every insert succeeds the incident's rows are exactly the
new ranked list; but when the k-th insert fails the incident's rows are
the first k new rows — the prior suspects are lost and the partial write
is observable. -/
theorem store_suspects_autocommit (table : List SuspectRow)
    (incident_id : String) (rows : List SuspectRow) :
    (∀ inc2, inc2 ≠ incident_id → ∀ failAt,
      (store_suspects table incident_id rows failAt).filter
          (fun r => r.incident_id == inc2) =
        table.filter (fun r => r.incident_id == inc2)) ∧
    ((store_suspects table incident_id rows none).filter
        (fun r => r.incident_id == incident_id) =
      rows.map fun r => { r with incident_id := incident_id }) ∧
    ∀ k, (store_suspects table incident_id rows (some k)).filter
        (fun r => r.incident_id == incident_id) =
      (rows.map fun r => { r with incident_id := incident_id }).take k := by
  have hdel2 : ∀ inc2, inc2 ≠ incident_id →
      (table.filter fun r => r.incident_id != incident_id).filter
        (fun r => r.incident_id == inc2) =
      table.filter (fun r => r.incident_id == inc2) := by
    intro inc2 hne
    induction table with
    | nil => rfl
    | cons r t ih =>
        by_cases h : r.incident_id = incident_id
        · have h1 : (r.incident_id != incident_id) = false := by
            simp [h]
          have h2 : (r.incident_id == inc2) = false := by
            simp [h]
            exact fun hc => hne hc.symm
          simp [List.filter_cons, h1, h2, ih]
        · have h1 : (r.incident_id != incident_id) = true := by simp [h]
          simp only [List.filter_cons, h1, cond_true, if_pos]
          rw [ih]
  have hdelself : (table.filter fun r => r.incident_id != incident_id).filter
      (fun r => r.incident_id == incident_id) = [] := by
    rw [List.filter_filter]
    apply List.filter_eq_nil_iff.2
    intro r _
    by_cases h : r.incident_id = incident_id <;> simp [h]
  have hins : ∀ n, ((rows.map fun r =>
      { r with incident_id := incident_id }).take n).filter
        (fun r => r.incident_id == incident_id) =
      (rows.map fun r => { r with incident_id := incident_id }).take n := by
    intro n
    apply List.filter_eq_self.2
    intro r hr
    have hr' := List.mem_of_mem_take hr
    rcases List.mem_map.1 hr' with ⟨r0, _, rfl⟩
    simp
  have hins2 : ∀ inc2, inc2 ≠ incident_id → ∀ n, ((rows.map fun r =>
      { r with incident_id := incident_id }).take n).filter
        (fun r => r.incident_id == inc2) = [] := by
    intro inc2 hne n
    apply List.filter_eq_nil_iff.2
    intro r hr
    have hr' := List.mem_of_mem_take hr
    rcases List.mem_map.1 hr' with ⟨r0, _, rfl⟩
    simpa using fun hc => hne hc.symm
  refine ⟨?_, ?_, ?_⟩
  · intro inc2 hne failAt
    unfold store_suspects
    rw [List.filter_append, hdel2 inc2 hne, hins2 inc2 hne, List.append_nil]
  · unfold store_suspects
    rw [List.filter_append, hdelself, List.nil_append, List.take_length]
    apply List.filter_eq_self.2
    intro r hr
    rcases List.mem_map.1 hr with ⟨r0, _, rfl⟩
    simp
  · intro k
    unfold store_suspects
    rw [List.filter_append, hdelself, List.nil_append, hins]

/-- **C4 (witness).** The autocommit characterization applied to the
concrete table and ranked rows of the counterexample. -/
theorem store_suspects_autocommit_witness :
    (∀ inc2, inc2 ≠ "inc1" → ∀ failAt,
      (store_suspects [⟨"old1", "inc1", "DEPLOYMENT", "d0", 1, 5, "e0"⟩]
          "inc1" [⟨"n1", "inc1", "CONFIG", "c1", 1, 4, "e1"⟩] failAt).filter
          (fun r => r.incident_id == inc2) =
        ([⟨"old1", "inc1", "DEPLOYMENT", "d0", 1, 5, "e0"⟩] :
          List SuspectRow).filter (fun r => r.incident_id == inc2)) ∧
    ((store_suspects [⟨"old1", "inc1", "DEPLOYMENT", "d0", 1, 5, "e0"⟩]
        "inc1" [⟨"n1", "inc1", "CONFIG", "c1", 1, 4, "e1"⟩] none).filter
        (fun r => r.incident_id == "inc1") =
      ([⟨"n1", "inc1", "CONFIG", "c1", 1, 4, "e1"⟩] : List SuspectRow).map
        fun r => { r with incident_id := "inc1" }) ∧
    ∀ k, (store_suspects [⟨"old1", "inc1", "DEPLOYMENT", "d0", 1, 5, "e0"⟩]
        "inc1" [⟨"n1", "inc1", "CONFIG", "c1", 1, 4, "e1"⟩] (some k)).filter
        (fun r => r.incident_id == "inc1") =
      (([⟨"n1", "inc1", "CONFIG", "c1", 1, 4, "e1"⟩] : List SuspectRow).map
        fun r => { r with incident_id := "inc1" }).take k :=
  store_suspects_autocommit
    [⟨"old1", "inc1", "DEPLOYMENT", "d0", 1, 5, "e0"⟩] "inc1"
    [⟨"n1", "inc1", "CONFIG", "c1", 1, 4, "e1"⟩]

end Pipeline
